import Mathlib

/-!
Shallow embedding of the realtime task board's coordination core:
the lock service (acquire / release / force-release for the drag-drop
lock and the independent edit lock), the lock-expiry scheduler tick,
the reorder handler, the delete handler, and the client-side offline
queue with its replay engine.  Each definition is translated from the
corresponding TypeScript function in the repository.
-/

namespace TaskBoard

/-- Task status enum (Prisma `TStatus`). -/
inductive TStatus where
  | TODO
  | PROGRESS
  | DONE
deriving Repr, DecidableEq

/-- A task row, with the fields the coordination core reads and writes:
identity, content, order index, and the two independent lock field
triples (drag-drop lock and edit lock). -/
structure Task where
  id : String
  title : String
  description : Option String
  status : TStatus
  orderId : Int
  isLocked : Bool
  lockAcquiredBy : Option String
  lockAcquireTime : Option Int
  isEditLocked : Bool
  editLockAcquiredBy : Option String
  editLockAcquireTime : Option Int
deriving Repr, DecidableEq

/-- The task table. -/
abbrev Store := List Task

/-- Socket.io broadcast events emitted by the backend
(`io.emit` calls, one constructor per event name). -/
inductive Event where
  | lock_acquired (taskId userId : String)
  | lock_released (taskId : String)
  | lock_expired (taskId : String)
  | edit_lock_acquired (taskId userId : String)
  | edit_lock_released (taskId : String)
  | edit_lock_expired (taskId : String)
  | task_created (t : Task)
  | task_updated (t : Task)
  | task_reordered (pairs : List (String × Int))
  | task_deleted (id : String)
deriving Repr, DecidableEq

/-- Result of an acquire call (`LockResult` in lockService.ts); `lockedBy`
carries the current holder's identity on denial. -/
structure LockResult where
  success : Bool
  lockedBy : Option String
deriving Repr, DecidableEq

/-- Errors surfaced by the lock service / routes (404 and 403). -/
inductive ApiError where
  | taskNotFound
  | forbidden
deriving Repr, DecidableEq

/-- `prisma.task.findUnique({ where: { id } })`. -/
def findTask (s : Store) (id : String) : Option Task :=
  s.find? (fun t => t.id == id)

/-- `prisma.task.update({ where: { id }, data })`: rewrite the row whose
id matches, leave every other row unchanged. -/
def updateTask (s : Store) (id : String) (f : Task → Task) : Store :=
  s.map (fun t => if t.id == id then f t else t)

/-- Data written by a successful drag-lock acquire. -/
def lockDrag (userId : String) (now : Int) (t : Task) : Task :=
  { t with isLocked := true, lockAcquiredBy := some userId, lockAcquireTime := some now }

/-- Data written by a drag-lock release / force-release. -/
def clearDrag (t : Task) : Task :=
  { t with isLocked := false, lockAcquiredBy := none, lockAcquireTime := none }

/-- Data written by a successful edit-lock acquire. -/
def lockEdit (userId : String) (now : Int) (t : Task) : Task :=
  { t with isEditLocked := true, editLockAcquiredBy := some userId, editLockAcquireTime := some now }

/-- Data written by an edit-lock release / force-release. -/
def clearEdit (t : Task) : Task :=
  { t with isEditLocked := false, editLockAcquiredBy := none, editLockAcquireTime := none }

/-- `acquireLock(taskId, userId)` from lockService.ts.  Atomic
check-and-set: denied (state unchanged) when held by someone else,
idempotent success without update when already self-held, otherwise
the row is locked with `lockAcquireTime = now` and `task:lock_acquired`
is emitted. -/
def acquireLock (s : Store) (taskId userId : String) (now : Int) :
    Except ApiError (LockResult × Store × List Event) :=
  match findTask s taskId with
  | none => .error .taskNotFound
  | some task =>
    if task.isLocked ∧ task.lockAcquiredBy ≠ some userId then
      .ok (⟨false, task.lockAcquiredBy⟩, s, [])
    else if task.isLocked ∧ task.lockAcquiredBy = some userId then
      .ok (⟨true, none⟩, s, [.lock_acquired taskId userId])
    else
      .ok (⟨true, none⟩, updateTask s taskId (lockDrag userId now),
           [.lock_acquired taskId userId])

/-- `releaseLock(taskId, userId)` from lockService.ts: succeeds only when
the drag lock is currently held by exactly `userId`. -/
def releaseLock (s : Store) (taskId userId : String) : Bool × Store × List Event :=
  match findTask s taskId with
  | none => (false, s, [])
  | some task =>
    if ¬task.isLocked then (false, s, [])
    else if task.lockAcquiredBy ≠ some userId then (false, s, [])
    else (true, updateTask s taskId clearDrag, [.lock_released taskId])

/-- `forceReleaseLock(taskId)` from lockService.ts: unconditional release
of a held drag lock, emitting `task:lock_expired`. -/
def forceReleaseLock (s : Store) (taskId : String) : Bool × Store × List Event :=
  match findTask s taskId with
  | none => (false, s, [])
  | some task =>
    if ¬task.isLocked then (false, s, [])
    else (true, updateTask s taskId clearDrag, [.lock_expired taskId])

/-- `acquireEditLock(taskId, userId)` from lockService.ts (independent of
the drag lock, same protocol). -/
def acquireEditLock (s : Store) (taskId userId : String) (now : Int) :
    Except ApiError (LockResult × Store × List Event) :=
  match findTask s taskId with
  | none => .error .taskNotFound
  | some task =>
    if task.isEditLocked ∧ task.editLockAcquiredBy ≠ some userId then
      .ok (⟨false, task.editLockAcquiredBy⟩, s, [])
    else if task.isEditLocked ∧ task.editLockAcquiredBy = some userId then
      .ok (⟨true, none⟩, s, [.edit_lock_acquired taskId userId])
    else
      .ok (⟨true, none⟩, updateTask s taskId (lockEdit userId now),
           [.edit_lock_acquired taskId userId])

/-- `releaseEditLock(taskId, userId)` from lockService.ts. -/
def releaseEditLock (s : Store) (taskId userId : String) : Bool × Store × List Event :=
  match findTask s taskId with
  | none => (false, s, [])
  | some task =>
    if ¬task.isEditLocked then (false, s, [])
    else if task.editLockAcquiredBy ≠ some userId then (false, s, [])
    else (true, updateTask s taskId clearEdit, [.edit_lock_released taskId])

/-- `forceReleaseEditLock(taskId)` from lockService.ts. -/
def forceReleaseEditLock (s : Store) (taskId : String) : Bool × Store × List Event :=
  match findTask s taskId with
  | none => (false, s, [])
  | some task =>
    if ¬task.isEditLocked then (false, s, [])
    else (true, updateTask s taskId clearEdit, [.edit_lock_expired taskId])

/-- Sample task used by concrete witnesses: both locks held by user u1. -/
def sampleLocked : Task :=
  { id := "t1", title := "Alpha", description := none, status := .TODO, orderId := 1,
    isLocked := true, lockAcquiredBy := some "u1", lockAcquireTime := some 1000,
    isEditLocked := true, editLockAcquiredBy := some "u1", editLockAcquireTime := some 1000 }

/-- Sample task used by concrete witnesses: both locks free. -/
def sampleFree : Task :=
  { id := "t2", title := "Beta", description := some "b", status := .PROGRESS, orderId := 2,
    isLocked := false, lockAcquiredBy := none, lockAcquireTime := none,
    isEditLocked := false, editLockAcquiredBy := none, editLockAcquireTime := none }

/-- Sample two-task store. -/
def sampleStore : Store := [sampleLocked, sampleFree]

/-- C1: when the drag (resp. edit) lock of an existing task is held by
`h1` and `h2 ≠ h1` attempts to acquire it, the call returns
`{success := false, lockedBy := h1}`, the whole store (hence every lock
field of the task) is unchanged, and no event is emitted. -/
theorem acquire_denied_carries_holder (s : Store) (taskId h1 h2 : String) (now : Int)
    (t : Task) (hfind : findTask s taskId = some t) (hne : h2 ≠ h1) :
    (t.isLocked = true → t.lockAcquiredBy = some h1 →
      acquireLock s taskId h2 now = .ok (⟨false, some h1⟩, s, [])) ∧
    (t.isEditLocked = true → t.editLockAcquiredBy = some h1 →
      acquireEditLock s taskId h2 now = .ok (⟨false, some h1⟩, s, [])) := by
  constructor
  · intro hl hby
    simp [acquireLock, hfind, hl, hby, hne, Ne.symm hne]
  · intro hl hby
    simp [acquireEditLock, hfind, hl, hby, hne, Ne.symm hne]

/-- Witness for C1 at a concrete store: u2 is denied both locks held by u1. -/
theorem acquire_denied_carries_holder_witness :
    acquireLock sampleStore "t1" "u2" 5000 = .ok (⟨false, some "u1"⟩, sampleStore, []) ∧
    acquireEditLock sampleStore "t1" "u2" 5000 = .ok (⟨false, some "u1"⟩, sampleStore, []) := by
  have h := acquire_denied_carries_holder sampleStore "t1" "u1" "u2" 5000 sampleLocked
    (by decide) (by decide)
  exact ⟨h.1 (by decide) (by decide), h.2 (by decide) (by decide)⟩

/-- C3: re-acquiring a drag (resp. edit) lock already held by `h`
returns success and leaves the whole store unchanged — in particular
`lockAcquireTime` (resp. `editLockAcquireTime`) is not refreshed. -/
theorem acquire_idempotent_no_refresh (s : Store) (taskId h : String) (now : Int)
    (t : Task) (hfind : findTask s taskId = some t) :
    (t.isLocked = true → t.lockAcquiredBy = some h →
      acquireLock s taskId h now = .ok (⟨true, none⟩, s, [.lock_acquired taskId h])) ∧
    (t.isEditLocked = true → t.editLockAcquiredBy = some h →
      acquireEditLock s taskId h now = .ok (⟨true, none⟩, s, [.edit_lock_acquired taskId h])) := by
  constructor
  · intro hl hby
    simp [acquireLock, hfind, hl, hby]
  · intro hl hby
    simp [acquireEditLock, hfind, hl, hby]

/-- Witness for C3 at a concrete store: u1 re-acquires its own locks,
the store (hence the acquire timestamp) is unchanged. -/
theorem acquire_idempotent_no_refresh_witness :
    acquireLock sampleStore "t1" "u1" 99999 =
      .ok (⟨true, none⟩, sampleStore, [.lock_acquired "t1" "u1"]) ∧
    acquireEditLock sampleStore "t1" "u1" 99999 =
      .ok (⟨true, none⟩, sampleStore, [.edit_lock_acquired "t1" "u1"]) := by
  have h := acquire_idempotent_no_refresh sampleStore "t1" "u1" 99999 sampleLocked (by decide)
  exact ⟨h.1 (by decide) (by decide), h.2 (by decide) (by decide)⟩

/-- Every row rewritten by `updateTask` keeps its id. -/
theorem updateTask_preserves_id (id : String) (f : Task → Task)
    (hf : ∀ t, (f t).id = t.id) (t : Task) :
    ((fun t => if t.id == id then f t else t) t).id = t.id := by
  by_cases h : t.id = id <;> simp [h, hf]

/-- A task found by id has that id. -/
theorem findTask_id (s : Store) (id : String) (t : Task)
    (h : findTask s id = some t) : t.id = id := by
  have := List.find?_some h
  simpa using this

/-- A task found in the store is a member of the store. -/
theorem findTask_mem (s : Store) (id : String) (t : Task)
    (h : findTask s id = some t) : t ∈ s :=
  List.mem_of_find?_eq_some h

/-- Lookup commutes with a map whose function preserves ids. -/
theorem findTask_map (s : Store) (f : Task → Task)
    (hf : ∀ t, (f t).id = t.id) (id : String) :
    findTask (s.map f) id = (findTask s id).map f := by
  induction s with
  | nil => rfl
  | cons a rest ih =>
    by_cases h : a.id = id
    · simp [findTask, List.find?_cons, hf, h]
    · simpa [findTask, List.find?_cons, hf, h] using ih

/-- Updating one id does not change the lookup of another id. -/
theorem findTask_updateTask_ne (s : Store) (id id' : String) (f : Task → Task)
    (hf : ∀ t, (f t).id = t.id) (h : id' ≠ id) :
    findTask (updateTask s id f) id' = findTask s id' := by
  rw [updateTask, findTask_map s _ (updateTask_preserves_id id f hf) id']
  cases hx : findTask s id' with
  | none => rfl
  | some t =>
    have hid : t.id = id' := findTask_id s id' t hx
    simp [hid, h]

/-- Updating an id rewrites exactly the looked-up row for that id. -/
theorem findTask_updateTask_self (s : Store) (id : String) (f : Task → Task)
    (hf : ∀ t, (f t).id = t.id) :
    findTask (updateTask s id f) id = (findTask s id).map f := by
  rw [updateTask, findTask_map s _ (updateTask_preserves_id id f hf) id]
  cases hx : findTask s id with
  | none => rfl
  | some t =>
    have hid : t.id = id := findTask_id s id t hx
    simp [hid]

/-- An id-preserving map keeps the id column of the table. -/
theorem map_id_of_preserves (s : Store) (f : Task → Task)
    (hf : ∀ t, (f t).id = t.id) :
    (s.map f).map Task.id = s.map Task.id := by
  rw [List.map_map]
  exact List.map_congr_left (fun t _ => hf t)

/-- With a duplicate-free id column, looking up a member's id finds it. -/
theorem findTask_of_mem (s : Store) (t : Task)
    (hnd : (s.map Task.id).Nodup) (hmem : t ∈ s) :
    findTask s t.id = some t := by
  induction s with
  | nil => cases hmem
  | cons a rest ih =>
    rcases List.mem_cons.mp hmem with heq | hmem
    · subst heq
      simp [findTask, List.find?_cons]
    · have hane : a.id ≠ t.id := by
        intro he
        have : t.id ∈ rest.map Task.id := List.mem_map_of_mem Task.id hmem
        rw [← he] at this
        exact (List.nodup_cons.mp (by simpa using hnd)).1 this
      have := ih (List.nodup_cons.mp (by simpa using hnd)).2 hmem
      simpa [findTask, List.find?_cons, hane] using this

/-- C7: `releaseLock` (resp. `releaseEditLock`) returns true and frees the
lock exactly when the drag (resp. edit) lock is currently held by exactly
the calling holder; in every other case (other holder, free, or absent
task) it returns false and leaves the store unchanged with no event. -/
theorem release_only_by_holder (s : Store) (taskId h : String) :
    ((releaseLock s taskId h).1 = true ↔
      ∃ t, findTask s taskId = some t ∧ t.isLocked = true ∧ t.lockAcquiredBy = some h) ∧
    (∀ t, findTask s taskId = some t → t.isLocked = true → t.lockAcquiredBy = some h →
      releaseLock s taskId h = (true, updateTask s taskId clearDrag, [.lock_released taskId]) ∧
      findTask (releaseLock s taskId h).2.1 taskId = some (clearDrag t) ∧
      ∀ id', id' ≠ taskId → findTask (releaseLock s taskId h).2.1 id' = findTask s id') ∧
    ((releaseLock s taskId h).1 = false → releaseLock s taskId h = (false, s, [])) ∧
    ((releaseEditLock s taskId h).1 = true ↔
      ∃ t, findTask s taskId = some t ∧ t.isEditLocked = true ∧ t.editLockAcquiredBy = some h) ∧
    (∀ t, findTask s taskId = some t → t.isEditLocked = true → t.editLockAcquiredBy = some h →
      releaseEditLock s taskId h = (true, updateTask s taskId clearEdit, [.edit_lock_released taskId]) ∧
      findTask (releaseEditLock s taskId h).2.1 taskId = some (clearEdit t) ∧
      ∀ id', id' ≠ taskId → findTask (releaseEditLock s taskId h).2.1 id' = findTask s id') ∧
    ((releaseEditLock s taskId h).1 = false → releaseEditLock s taskId h = (false, s, [])) := by
  refine ⟨?_, ?_, ?_, ?_, ?_, ?_⟩
  · cases hx : findTask s taskId with
    | none => simp [releaseLock, hx]
    | some t =>
      by_cases hl : t.isLocked
      · by_cases hby : t.lockAcquiredBy = some h
        · simp [releaseLock, hx, hl, hby]
        · simp [releaseLock, hx, hl, hby]
      · simp [releaseLock, hx, hl]
  · intro t hx hl hby
    have heq : releaseLock s taskId h =
        (true, updateTask s taskId clearDrag, [.lock_released taskId]) := by
      simp [releaseLock, hx, hl, hby]
    refine ⟨heq, ?_, ?_⟩
    · rw [heq]
      have := findTask_updateTask_self s taskId clearDrag (fun t => rfl)
      simp [this, hx]
    · intro id' hne
      rw [heq]
      exact findTask_updateTask_ne s taskId id' clearDrag (fun t => rfl) hne
  · cases hx : findTask s taskId with
    | none => intro _; simp [releaseLock, hx]
    | some t =>
      by_cases hl : t.isLocked
      · by_cases hby : t.lockAcquiredBy = some h
        · simp [releaseLock, hx, hl, hby]
        · intro _; simp [releaseLock, hx, hl, hby]
      · intro _; simp [releaseLock, hx, hl]
  · cases hx : findTask s taskId with
    | none => simp [releaseEditLock, hx]
    | some t =>
      by_cases hl : t.isEditLocked
      · by_cases hby : t.editLockAcquiredBy = some h
        · simp [releaseEditLock, hx, hl, hby]
        · simp [releaseEditLock, hx, hl, hby]
      · simp [releaseEditLock, hx, hl]
  · intro t hx hl hby
    have heq : releaseEditLock s taskId h =
        (true, updateTask s taskId clearEdit, [.edit_lock_released taskId]) := by
      simp [releaseEditLock, hx, hl, hby]
    refine ⟨heq, ?_, ?_⟩
    · rw [heq]
      have := findTask_updateTask_self s taskId clearEdit (fun t => rfl)
      simp [this, hx]
    · intro id' hne
      rw [heq]
      exact findTask_updateTask_ne s taskId id' clearEdit (fun t => rfl) hne
  · cases hx : findTask s taskId with
    | none => intro _; simp [releaseEditLock, hx]
    | some t =>
      by_cases hl : t.isEditLocked
      · by_cases hby : t.editLockAcquiredBy = some h
        · simp [releaseEditLock, hx, hl, hby]
        · intro _; simp [releaseEditLock, hx, hl, hby]
      · intro _; simp [releaseEditLock, hx, hl]

/-- Witness for C7 at a concrete store: the non-holder u2 cannot release
u1's locks (states unchanged), and the holder u1 can. -/
theorem release_only_by_holder_witness :
    (releaseLock sampleStore "t1" "u2").1 = false ∧
    releaseLock sampleStore "t1" "u2" = (false, sampleStore, []) ∧
    (releaseLock sampleStore "t1" "u1").1 = true ∧
    (releaseEditLock sampleStore "t1" "u2").1 = false ∧
    releaseEditLock sampleStore "t1" "u2" = (false, sampleStore, []) ∧
    (releaseEditLock sampleStore "t1" "u1").1 = true := by
  have h2 := release_only_by_holder sampleStore "t1" "u2"
  have h1 := release_only_by_holder sampleStore "t1" "u1"
  have hf2 : (releaseLock sampleStore "t1" "u2").1 = false := by decide
  have hef2 : (releaseEditLock sampleStore "t1" "u2").1 = false := by decide
  refine ⟨hf2, h2.2.2.1 hf2, ?_, hef2, (h2.2.2.2.2.2) hef2, ?_⟩
  · exact h1.1.mpr ⟨sampleLocked, by decide, by decide, by decide⟩
  · exact h1.2.2.2.1.mpr ⟨sampleLocked, by decide, by decide, by decide⟩

/-- C8: `forceReleaseLock` (resp. `forceReleaseEditLock`) on a held lock
succeeds regardless of the holder, frees the task and emits the distinct
expired event; on a free lock it returns false with no event and no
change, so a second redundant call after a successful one is a no-op. -/
theorem forceRelease_unconditional (s : Store) (taskId : String) :
    (∀ t, findTask s taskId = some t → t.isLocked = true →
      forceReleaseLock s taskId = (true, updateTask s taskId clearDrag, [.lock_expired taskId]) ∧
      findTask (forceReleaseLock s taskId).2.1 taskId = some (clearDrag t) ∧
      forceReleaseLock (forceReleaseLock s taskId).2.1 taskId =
        (false, (forceReleaseLock s taskId).2.1, [])) ∧
    (∀ t, findTask s taskId = some t → t.isLocked = false →
      forceReleaseLock s taskId = (false, s, [])) ∧
    ((forceReleaseLock s taskId).1 = false → forceReleaseLock s taskId = (false, s, [])) ∧
    (∀ t, findTask s taskId = some t → t.isEditLocked = true →
      forceReleaseEditLock s taskId =
        (true, updateTask s taskId clearEdit, [.edit_lock_expired taskId]) ∧
      findTask (forceReleaseEditLock s taskId).2.1 taskId = some (clearEdit t) ∧
      forceReleaseEditLock (forceReleaseEditLock s taskId).2.1 taskId =
        (false, (forceReleaseEditLock s taskId).2.1, [])) ∧
    (∀ t, findTask s taskId = some t → t.isEditLocked = false →
      forceReleaseEditLock s taskId = (false, s, [])) ∧
    ((forceReleaseEditLock s taskId).1 = false →
      forceReleaseEditLock s taskId = (false, s, [])) := by
  refine ⟨?_, ?_, ?_, ?_, ?_, ?_⟩
  · intro t hx hl
    have heq : forceReleaseLock s taskId =
        (true, updateTask s taskId clearDrag, [.lock_expired taskId]) := by
      simp [forceReleaseLock, hx, hl]
    have hfind : findTask (forceReleaseLock s taskId).2.1 taskId = some (clearDrag t) := by
      rw [heq]
      have := findTask_updateTask_self s taskId clearDrag (fun t => rfl)
      simp [this, hx]
    refine ⟨heq, hfind, ?_⟩
    generalize hS : (forceReleaseLock s taskId).2.1 = S at hfind ⊢
    simp [forceReleaseLock, hfind, clearDrag]
  · intro t hx hl
    simp [forceReleaseLock, hx, hl]
  · cases hx : findTask s taskId with
    | none => intro _; simp [forceReleaseLock, hx]
    | some t =>
      by_cases hl : t.isLocked
      · simp [forceReleaseLock, hx, hl]
      · intro _; simp [forceReleaseLock, hx, hl]
  · intro t hx hl
    have heq : forceReleaseEditLock s taskId =
        (true, updateTask s taskId clearEdit, [.edit_lock_expired taskId]) := by
      simp [forceReleaseEditLock, hx, hl]
    have hfind : findTask (forceReleaseEditLock s taskId).2.1 taskId = some (clearEdit t) := by
      rw [heq]
      have := findTask_updateTask_self s taskId clearEdit (fun t => rfl)
      simp [this, hx]
    refine ⟨heq, hfind, ?_⟩
    generalize hS : (forceReleaseEditLock s taskId).2.1 = S at hfind ⊢
    simp [forceReleaseEditLock, hfind, clearEdit]
  · intro t hx hl
    simp [forceReleaseEditLock, hx, hl]
  · cases hx : findTask s taskId with
    | none => intro _; simp [forceReleaseEditLock, hx]
    | some t =>
      by_cases hl : t.isEditLocked
      · simp [forceReleaseEditLock, hx, hl]
      · intro _; simp [forceReleaseEditLock, hx, hl]

/-- Witness for C8 at a concrete store: u1's held locks are force-released
(whoever calls), the freed task stays free on a second call, and the free
task t2 yields false with no event. -/
theorem forceRelease_unconditional_witness :
    forceReleaseLock sampleStore "t1" =
      (true, updateTask sampleStore "t1" clearDrag, [.lock_expired "t1"]) ∧
    forceReleaseLock sampleStore "t2" = (false, sampleStore, []) ∧
    forceReleaseEditLock sampleStore "t1" =
      (true, updateTask sampleStore "t1" clearEdit, [.edit_lock_expired "t1"]) ∧
    forceReleaseEditLock sampleStore "t2" = (false, sampleStore, []) := by
  have h := forceRelease_unconditional sampleStore "t1"
  have h2 := forceRelease_unconditional sampleStore "t2"
  exact ⟨(h.1 sampleLocked (by decide) (by decide)).1,
    h2.2.1 sampleFree (by decide) (by decide),
    (h.2.2.2.1 sampleLocked (by decide) (by decide)).1,
    h2.2.2.2.2.1 sampleFree (by decide) (by decide)⟩

/-- `DELETE /:id` from tasks.ts: `prisma.task.delete` removes the row (it
throws when the row is absent, surfaced as a 500), then `task:deleted` is
broadcast.  No lock field is read anywhere on this path. -/
def deleteTask (s : Store) (id : String) : Except ApiError (Store × List Event) :=
  match findTask s id with
  | none => .error .taskNotFound
  | some _ => .ok (s.filter (fun t => t.id != id), [.task_deleted id])

/-- Lookup of a different id passes through a filter that only drops rows
of the given id. -/
theorem findTask_filter_ne (s : Store) (id id' : String) (h : id' ≠ id) :
    findTask (s.filter (fun t => t.id != id)) id' = findTask s id' := by
  induction s with
  | nil => rfl
  | cons a rest ih =>
    rw [List.filter_cons]
    by_cases ha : a.id = id
    · have hg : (a.id != id) = false := by simp [ha]
      rw [hg]
      simp only [Bool.false_eq_true, if_false]
      rw [ih]
      show findTask rest id' = findTask (a :: rest) id'
      rw [findTask, findTask, List.find?_cons_of_neg _ (by simp [ha, Ne.symm h])]
    · have hg : (a.id != id) = true := by simp [ha]
      rw [hg]
      simp only [if_true]
      rw [findTask, findTask]
      by_cases ha' : a.id = id'
      · rw [List.find?_cons_of_pos _ (by simp [ha']),
          List.find?_cons_of_pos _ (by simp [ha'])]
      · rw [List.find?_cons_of_neg _ (by simp [ha']),
          List.find?_cons_of_neg _ (by simp [ha'])]
        exact ih

/-- C10: deleting an existing task succeeds without consulting either
lock (no lock field occurs in any hypothesis), removes the task — and
with it both of its lock records — broadcasts `task:deleted`, and leaves
every other task untouched. -/
theorem deleteTask_ignores_locks (s : Store) (id : String) (t : Task)
    (hfind : findTask s id = some t) :
    deleteTask s id = .ok (s.filter (fun t => t.id != id), [.task_deleted id]) ∧
    findTask (s.filter (fun t => t.id != id)) id = none ∧
    (∀ id', id' ≠ id → findTask (s.filter (fun t => t.id != id)) id' = findTask s id') := by
  refine ⟨by simp [deleteTask, hfind], ?_, fun id' h => findTask_filter_ne s id id' h⟩
  rw [findTask]
  rw [List.find?_eq_none]
  intro u hu
  have := (List.mem_filter.mp hu).2
  simp at this
  simp [this]

/-- Witness for C10: the sample task t1 is deleted while both of its
locks are held by u1; the task and its locks are gone, t2 is untouched. -/
theorem deleteTask_ignores_locks_witness :
    deleteTask sampleStore "t1" = .ok ([sampleFree], [.task_deleted "t1"]) ∧
    findTask (sampleStore.filter (fun t => t.id != "t1")) "t1" = none ∧
    findTask (sampleStore.filter (fun t => t.id != "t1")) "t2" = findTask sampleStore "t2" := by
  have h := deleteTask_ignores_locks sampleStore "t1" sampleLocked (by decide)
  refine ⟨?_, h.2.1, h.2.2 "t2" (by decide)⟩
  have hfilter : sampleStore.filter (fun t => t.id != "t1") = [sampleFree] := by decide
  rw [h.1, hfilter]

/-- `LOCK_EXPIRY_MS = 2 * 60 * 1000` from scheduler/lockExpiry.ts. -/
def LOCK_EXPIRY_MS : Int := 2 * 60 * 1000

/-- Prisma `{ lt: threshold }` on a nullable DateTime column: a null
timestamp never matches. -/
def timeLt : Option Int → Int → Bool
  | none, _ => false
  | some a, b => decide (a < b)

/-- The scheduler's drag-lock expiry criterion at tick time `now`. -/
def dragExpired (now : Int) (t : Task) : Bool :=
  t.isLocked && timeLt t.lockAcquireTime (now - LOCK_EXPIRY_MS)

/-- The scheduler's edit-lock expiry criterion at tick time `now`. -/
def editExpired (now : Int) (t : Task) : Bool :=
  t.isEditLocked && timeLt t.editLockAcquireTime (now - LOCK_EXPIRY_MS)

/-- `Promise.all(expired.map(forceReleaseLock))`: release every listed id
(the releases touch pairwise distinct rows, embedded sequentially). -/
def forceAllDrag : Store → List String → Store × List Event
  | s, [] => (s, [])
  | s, id :: rest =>
    let r := forceReleaseLock s id
    let k := forceAllDrag r.2.1 rest
    (k.1, r.2.2 ++ k.2)

/-- `Promise.all(expired.map(forceReleaseEditLock))`. -/
def forceAllEdit : Store → List String → Store × List Event
  | s, [] => (s, [])
  | s, id :: rest =>
    let r := forceReleaseEditLock s id
    let k := forceAllEdit r.2.1 rest
    (k.1, r.2.2 ++ k.2)

/-- First half of a scheduler tick: find every task with
`isLocked && lockAcquireTime < now - LOCK_EXPIRY_MS` and force-release
its drag lock. -/
def dragPhase (s : Store) (now : Int) : Store × List Event :=
  forceAllDrag s
    ((s.filter (fun t => t.isLocked && timeLt t.lockAcquireTime (now - LOCK_EXPIRY_MS))).map
      Task.id)

/-- Second half of a scheduler tick: find every task with
`isEditLocked && editLockAcquireTime < now - LOCK_EXPIRY_MS` and
force-release its edit lock. -/
def editPhase (s : Store) (now : Int) : Store × List Event :=
  forceAllEdit s
    ((s.filter (fun t => t.isEditLocked && timeLt t.editLockAcquireTime (now - LOCK_EXPIRY_MS))).map
      Task.id)

/-- One tick of `startLockExpiryScheduler` from lockExpiry.ts: expire the
overdue drag locks, then the overdue edit locks, at one threshold. -/
def schedulerTick (s : Store) (now : Int) : Store × List Event :=
  let d := dragPhase s now
  let e := editPhase d.1 now
  (e.1, d.2 ++ e.2)

/-- The drag-lock field triple of a task. -/
def dragLockOf (t : Task) : Bool × Option String × Option Int :=
  (t.isLocked, t.lockAcquiredBy, t.lockAcquireTime)

/-- The edit-lock field triple of a task. -/
def editLockOf (t : Task) : Bool × Option String × Option Int :=
  (t.isEditLocked, t.editLockAcquiredBy, t.editLockAcquireTime)

/-- A drag force-release does not touch other rows. -/
theorem findTask_forceReleaseLock_ne (s : Store) (id id' : String) (h : id' ≠ id) :
    findTask (forceReleaseLock s id).2.1 id' = findTask s id' := by
  unfold forceReleaseLock
  cases hx : findTask s id with
  | none => rfl
  | some t =>
    by_cases hl : t.isLocked
    · simp [hl, findTask_updateTask_ne s id id' clearDrag (fun t => rfl) h]
    · simp [hl]

/-- A drag force-release clears its row exactly when it was locked. -/
theorem findTask_forceReleaseLock_self (s : Store) (id : String) :
    findTask (forceReleaseLock s id).2.1 id =
      (findTask s id).map (fun t => if t.isLocked then clearDrag t else t) := by
  unfold forceReleaseLock
  cases hx : findTask s id with
  | none => simp [hx]
  | some t =>
    by_cases hl : t.isLocked
    · simp [hx, hl, findTask_updateTask_self s id clearDrag (fun t => rfl)]
    · simp [hx, hl]

/-- An edit force-release does not touch other rows. -/
theorem findTask_forceReleaseEditLock_ne (s : Store) (id id' : String) (h : id' ≠ id) :
    findTask (forceReleaseEditLock s id).2.1 id' = findTask s id' := by
  unfold forceReleaseEditLock
  cases hx : findTask s id with
  | none => rfl
  | some t =>
    by_cases hl : t.isEditLocked
    · simp [hl, findTask_updateTask_ne s id id' clearEdit (fun t => rfl) h]
    · simp [hl]

/-- An edit force-release clears its row exactly when it was locked. -/
theorem findTask_forceReleaseEditLock_self (s : Store) (id : String) :
    findTask (forceReleaseEditLock s id).2.1 id =
      (findTask s id).map (fun t => if t.isEditLocked then clearEdit t else t) := by
  unfold forceReleaseEditLock
  cases hx : findTask s id with
  | none => simp [hx]
  | some t =>
    by_cases hl : t.isEditLocked
    · simp [hx, hl, findTask_updateTask_self s id clearEdit (fun t => rfl)]
    · simp [hx, hl]

/-- Batch drag release: the row of `id` ends cleared exactly when `id`
was listed and locked; all other rows are untouched. -/
theorem findTask_forceAllDrag (ids : List String) (s : Store) (id : String) :
    findTask (forceAllDrag s ids).1 id =
      if id ∈ ids then (findTask s id).map (fun t => if t.isLocked then clearDrag t else t)
      else findTask s id := by
  induction ids generalizing s with
  | nil => simp [forceAllDrag]
  | cons a rest ih =>
    show findTask (forceAllDrag (forceReleaseLock s a).2.1 rest).1 id = _
    by_cases hEq : id = a
    · subst hEq
      rw [ih, findTask_forceReleaseLock_self]
      by_cases hmem : id ∈ rest
      · rw [if_pos hmem, if_pos (List.mem_cons_self id rest)]
        rw [Option.map_map]
        congr 1
        funext u
        by_cases hl : u.isLocked <;> simp [Function.comp, hl, clearDrag]
      · rw [if_neg hmem, if_pos (List.mem_cons_self id rest)]
    · rw [ih, findTask_forceReleaseLock_ne s a id hEq]
      simp [List.mem_cons, hEq]

/-- Batch edit release: the row of `id` ends cleared exactly when `id`
was listed and edit-locked; all other rows are untouched. -/
theorem findTask_forceAllEdit (ids : List String) (s : Store) (id : String) :
    findTask (forceAllEdit s ids).1 id =
      if id ∈ ids then (findTask s id).map (fun t => if t.isEditLocked then clearEdit t else t)
      else findTask s id := by
  induction ids generalizing s with
  | nil => simp [forceAllEdit]
  | cons a rest ih =>
    show findTask (forceAllEdit (forceReleaseEditLock s a).2.1 rest).1 id = _
    by_cases hEq : id = a
    · subst hEq
      rw [ih, findTask_forceReleaseEditLock_self]
      by_cases hmem : id ∈ rest
      · rw [if_pos hmem, if_pos (List.mem_cons_self id rest)]
        rw [Option.map_map]
        congr 1
        funext u
        by_cases hl : u.isEditLocked <;> simp [Function.comp, hl, clearEdit]
      · rw [if_neg hmem, if_pos (List.mem_cons_self id rest)]
    · rw [ih, findTask_forceReleaseEditLock_ne s a id hEq]
      simp [List.mem_cons, hEq]

/-- A listed, locked row gets its `lock_expired` event in the batch. -/
theorem lock_expired_mem_forceAllDrag (ids : List String) (s : Store) (id : String) (t : Task)
    (hfind : findTask s id = some t) (hl : t.isLocked = true) (hmem : id ∈ ids) :
    Event.lock_expired id ∈ (forceAllDrag s ids).2 := by
  induction ids generalizing s t with
  | nil => cases hmem
  | cons a rest ih =>
    show Event.lock_expired id ∈ (forceReleaseLock s a).2.2 ++ _
    by_cases hEq : id = a
    · subst hEq
      have hev : (forceReleaseLock s id).2.2 = [Event.lock_expired id] := by
        simp [forceReleaseLock, hfind, hl]
      simp [hev]
    · have hmem' : id ∈ rest := by
        rcases List.mem_cons.mp hmem with h | h
        · exact absurd h hEq
        · exact h
      have hfind' : findTask (forceReleaseLock s a).2.1 id = some t := by
        rw [findTask_forceReleaseLock_ne s a id hEq]; exact hfind
      exact List.mem_append_right _ (ih _ _ hfind' hl hmem')

/-- A listed, edit-locked row gets its `edit_lock_expired` event. -/
theorem edit_lock_expired_mem_forceAllEdit (ids : List String) (s : Store) (id : String)
    (t : Task) (hfind : findTask s id = some t) (hl : t.isEditLocked = true) (hmem : id ∈ ids) :
    Event.edit_lock_expired id ∈ (forceAllEdit s ids).2 := by
  induction ids generalizing s t with
  | nil => cases hmem
  | cons a rest ih =>
    show Event.edit_lock_expired id ∈ (forceReleaseEditLock s a).2.2 ++ _
    by_cases hEq : id = a
    · subst hEq
      have hev : (forceReleaseEditLock s id).2.2 = [Event.edit_lock_expired id] := by
        simp [forceReleaseEditLock, hfind, hl]
      simp [hev]
    · have hmem' : id ∈ rest := by
        rcases List.mem_cons.mp hmem with h | h
        · exact absurd h hEq
        · exact h
      have hfind' : findTask (forceReleaseEditLock s a).2.1 id = some t := by
        rw [findTask_forceReleaseEditLock_ne s a id hEq]; exact hfind
      exact List.mem_append_right _ (ih _ _ hfind' hl hmem')

/-- Force-releasing keeps the id column. -/
theorem map_id_forceReleaseLock (s : Store) (id : String) :
    ((forceReleaseLock s id).2.1).map Task.id = s.map Task.id := by
  unfold forceReleaseLock
  cases hx : findTask s id with
  | none => rfl
  | some t =>
    by_cases hl : t.isLocked
    · simp only [hl]
      simpa [updateTask] using
        map_id_of_preserves s _ (updateTask_preserves_id id clearDrag (fun t => rfl))
    · simp [hl]

/-- Edit force-releasing keeps the id column. -/
theorem map_id_forceReleaseEditLock (s : Store) (id : String) :
    ((forceReleaseEditLock s id).2.1).map Task.id = s.map Task.id := by
  unfold forceReleaseEditLock
  cases hx : findTask s id with
  | none => rfl
  | some t =>
    by_cases hl : t.isEditLocked
    · simp only [hl]
      simpa [updateTask] using
        map_id_of_preserves s _ (updateTask_preserves_id id clearEdit (fun t => rfl))
    · simp [hl]

/-- Batch drag release keeps the id column. -/
theorem map_id_forceAllDrag (ids : List String) (s : Store) :
    ((forceAllDrag s ids).1).map Task.id = s.map Task.id := by
  induction ids generalizing s with
  | nil => rfl
  | cons a rest ih =>
    show ((forceAllDrag (forceReleaseLock s a).2.1 rest).1).map Task.id = _
    rw [ih, map_id_forceReleaseLock]

/-- Membership of a row's id in a filtered id list is exactly the
predicate's verdict on the row, when ids are duplicate-free. -/
theorem mem_filter_map_id (s : Store) (p : Task → Bool) (t : Task)
    (hnd : (s.map Task.id).Nodup) (hmem : t ∈ s) :
    t.id ∈ (s.filter p).map Task.id ↔ p t = true := by
  constructor
  · intro hin
    rcases List.mem_map.mp hin with ⟨u, hu, hid⟩
    have hus : u ∈ s := (List.mem_filter.mp hu).1
    have hpu : p u = true := (List.mem_filter.mp hu).2
    have hut : u = t := List.inj_on_of_nodup_map hnd hus hmem hid
    rwa [hut] at hpu
  · intro hp
    exact List.mem_map_of_mem Task.id (List.mem_filter.mpr ⟨hmem, hp⟩)

/-- The drag phase clears exactly the expired drag locks and emits their
`lock_expired` events; its store keeps the id column. -/
theorem dragPhase_spec (s : Store) (now : Int) (t : Task)
    (hnd : (s.map Task.id).Nodup) (hmem : t ∈ s) :
    findTask (dragPhase s now).1 t.id = some (if dragExpired now t then clearDrag t else t) ∧
    (dragExpired now t = true → Event.lock_expired t.id ∈ (dragPhase s now).2) := by
  have hfind : findTask s t.id = some t := findTask_of_mem s t hnd hmem
  have hmemiff := mem_filter_map_id s
    (fun u => u.isLocked && timeLt u.lockAcquireTime (now - LOCK_EXPIRY_MS)) t hnd hmem
  constructor
  · rw [dragPhase, findTask_forceAllDrag]
    by_cases hexp : dragExpired now t
    · have hl : t.isLocked = true := by
        have h2 := hexp
        rw [dragExpired, Bool.and_eq_true] at h2
        exact h2.1
      rw [if_pos (hmemiff.mpr hexp), hfind]
      simp [hl, hexp]
    · rw [if_neg (fun hc => hexp (hmemiff.mp hc)), hfind]
      simp [hexp]
  · intro hexp
    have hl : t.isLocked = true := by
      have h2 := hexp
      rw [dragExpired, Bool.and_eq_true] at h2
      exact h2.1
    exact lock_expired_mem_forceAllDrag _ s t.id t hfind hl (hmemiff.mpr hexp)

/-- The edit phase clears exactly the expired edit locks and emits their
`edit_lock_expired` events. -/
theorem editPhase_spec (s : Store) (now : Int) (t : Task)
    (hnd : (s.map Task.id).Nodup) (hmem : t ∈ s) :
    findTask (editPhase s now).1 t.id = some (if editExpired now t then clearEdit t else t) ∧
    (editExpired now t = true → Event.edit_lock_expired t.id ∈ (editPhase s now).2) := by
  have hfind : findTask s t.id = some t := findTask_of_mem s t hnd hmem
  have hmemiff := mem_filter_map_id s
    (fun u => u.isEditLocked && timeLt u.editLockAcquireTime (now - LOCK_EXPIRY_MS)) t hnd hmem
  constructor
  · rw [editPhase, findTask_forceAllEdit]
    by_cases hexp : editExpired now t
    · have hl : t.isEditLocked = true := by
        have h2 := hexp
        rw [editExpired, Bool.and_eq_true] at h2
        exact h2.1
      rw [if_pos (hmemiff.mpr hexp), hfind]
      simp [hl, hexp]
    · rw [if_neg (fun hc => hexp (hmemiff.mp hc)), hfind]
      simp [hexp]
  · intro hexp
    have hl : t.isEditLocked = true := by
      have h2 := hexp
      rw [editExpired, Bool.and_eq_true] at h2
      exact h2.1
    exact edit_lock_expired_mem_forceAllEdit _ s t.id t hfind hl (hmemiff.mpr hexp)

/-- C4: a scheduler tick at time `now` force-releases exactly the locks
held with an acquire timestamp earlier than `now - 2min`, for both the
drag and the edit lock: each task's resulting lock triples are cleared
when expired and untouched otherwise, and each expiry emits its
`lock_expired` / `edit_lock_expired` event. -/
theorem schedulerTick_expires_exactly (s : Store) (now : Int) (t : Task)
    (hnd : (s.map Task.id).Nodup) (hmem : t ∈ s) :
    ∃ u, findTask (schedulerTick s now).1 t.id = some u ∧
      dragLockOf u = (if dragExpired now t then dragLockOf (clearDrag t) else dragLockOf t) ∧
      editLockOf u = (if editExpired now t then editLockOf (clearEdit t) else editLockOf t) ∧
      (dragExpired now t = true → Event.lock_expired t.id ∈ (schedulerTick s now).2) ∧
      (editExpired now t = true → Event.edit_lock_expired t.id ∈ (schedulerTick s now).2) := by
  have hdrag := dragPhase_spec s now t hnd hmem
  have hnd1 : (((dragPhase s now).1).map Task.id).Nodup := by
    rw [dragPhase, map_id_forceAllDrag]
    exact hnd
  have hmem1 : (if dragExpired now t then clearDrag t else t) ∈ (dragPhase s now).1 :=
    findTask_mem _ _ _ hdrag.1
  have hid1 : (if dragExpired now t then clearDrag t else t).id = t.id := by
    by_cases hexp : dragExpired now t <;> simp [hexp, clearDrag]
  have hedit := editPhase_spec (dragPhase s now).1 now
    (if dragExpired now t then clearDrag t else t) hnd1 hmem1
  have heditSame : editExpired now (if dragExpired now t then clearDrag t else t) =
      editExpired now t := by
    by_cases hexp : dragExpired now t <;> simp [hexp, editExpired, clearDrag]
  refine ⟨if editExpired now t then clearEdit (if dragExpired now t then clearDrag t else t)
      else (if dragExpired now t then clearDrag t else t), ?_, ?_, ?_, ?_, ?_⟩
  · show findTask (editPhase (dragPhase s now).1 now).1 t.id = _
    rw [← hid1]
    rw [hedit.1, heditSame]
  · by_cases he : editExpired now t <;> by_cases hd : dragExpired now t <;>
      simp [he, hd, dragLockOf, clearDrag, clearEdit]
  · by_cases he : editExpired now t <;> by_cases hd : dragExpired now t <;>
      simp [he, hd, editLockOf, clearDrag, clearEdit]
  · intro hexp
    show Event.lock_expired t.id ∈ (dragPhase s now).2 ++ (editPhase (dragPhase s now).1 now).2
    exact List.mem_append_left _ (hdrag.2 hexp)
  · intro hexp
    show Event.edit_lock_expired t.id ∈ (dragPhase s now).2 ++ (editPhase (dragPhase s now).1 now).2
    refine List.mem_append_right _ ?_
    rw [← hid1]
    exact hedit.2 (by rw [heditSame]; exact hexp)

/-- Witness for C4, scenario B: a lock acquired at `t0 = 1000` ms is
still held by a tick at `t0 + 29s` and is freed, with a `lock_expired`
event, by a tick at `t0 + 121s` (thresholds strictly exceed the 2-minute
TTL); the edit lock behaves the same. -/
theorem schedulerTick_expires_exactly_witness :
    dragExpired 30000 sampleLocked = false ∧
    dragExpired 122000 sampleLocked = true ∧
    (∃ u, findTask (schedulerTick sampleStore 122000).1 "t1" = some u ∧
      dragLockOf u = dragLockOf (clearDrag sampleLocked) ∧
      editLockOf u = editLockOf (clearEdit sampleLocked)) ∧
    Event.lock_expired "t1" ∈ (schedulerTick sampleStore 122000).2 ∧
    Event.edit_lock_expired "t1" ∈ (schedulerTick sampleStore 122000).2 := by
  have h := schedulerTick_expires_exactly sampleStore 122000 sampleLocked
    (by decide) (by decide)
  rcases h with ⟨u, hu, hdrag, hedit, hevd, heve⟩
  have hexp : dragExpired 122000 sampleLocked = true := by decide
  have hexpE : editExpired 122000 sampleLocked = true := by decide
  refine ⟨by decide, hexp, ⟨u, ?_, ?_, ?_⟩, hevd hexp, heve hexpE⟩
  · have : sampleLocked.id = "t1" := by decide
    rwa [this] at hu
  · rwa [hexp, if_pos rfl] at hdrag
  · rwa [hexpE, if_pos rfl] at hedit

/-- The reorder offset (`const OFFSET = 100000` in tasks.ts). -/
def OFFSET : Int := 100000

/-- Data written by one reorder update: `data: { orderId: v }`. -/
def setOrderId (v : Int) (t : Task) : Task := { t with orderId := v }

/-- One batch of `orderedIds.map((id, index) => update orderId = base + index + 1)`,
threading the running index `k`. -/
def assignFrom (base : Int) : Nat → Store → List String → Store
  | _, s, [] => s
  | k, s, id :: rest =>
    assignFrom base (k + 1) (updateTask s id (setOrderId (base + (k : Int) + 1))) rest

/-- `PATCH /reorder` from tasks.ts: check the drag lock is held by the
caller, write the spread batch (`OFFSET + index + 1`), then the compact
batch (`index + 1`), release the lock, and broadcast the new pairs. -/
def reorderTasks (s : Store) (taskId userId : String) (orderedIds : List String) :
    Except ApiError (Store × List (String × Int) × List Event) :=
  match findTask s taskId with
  | none => .error .taskNotFound
  | some t =>
    if t.isLocked ∧ t.lockAcquiredBy = some userId then
      let s1 := assignFrom OFFSET 0 s orderedIds
      let s2 := assignFrom 0 0 s1 orderedIds
      let r := releaseLock s2 taskId userId
      let updated :=
        (r.2.1.filter (fun u => orderedIds.contains u.id)).map (fun u => (u.id, u.orderId))
      .ok (r.2.1, updated, r.2.2 ++ [.task_reordered updated])
    else .error .forbidden

/-- A batch that never mentions an id leaves that id's row alone. -/
theorem findTask_assignFrom_not_mem (base : Int) (l : List String) (k : Nat) (s : Store)
    (id : String) (h : id ∉ l) :
    findTask (assignFrom base k s l) id = findTask s id := by
  induction l generalizing k s with
  | nil => rfl
  | cons a rest ih =>
    have hna : id ≠ a := fun he => h (he ▸ List.mem_cons_self a rest)
    show findTask (assignFrom base (k + 1)
      (updateTask s a (setOrderId (base + (k : Int) + 1))) rest) id = _
    rw [ih (k + 1) _ (fun hm => h (List.mem_cons_of_mem a hm)),
      findTask_updateTask_ne s a id (setOrderId (base + (k : Int) + 1)) (fun t => rfl) hna]

/-- In a duplicate-free batch the row of the i-th id ends with
`orderId = base + (k + i) + 1`. -/
theorem findTask_assignFrom_get (base : Int) (l : List String) (hnd : l.Nodup) (k : Nat)
    (s : Store) (i : Nat) (hi : i < l.length) :
    findTask (assignFrom base k s l) (l.get ⟨i, hi⟩) =
      (findTask s (l.get ⟨i, hi⟩)).map (setOrderId (base + ((k + i : Nat) : Int) + 1)) := by
  induction l generalizing k s i with
  | nil => exact absurd hi (Nat.not_lt_zero i)
  | cons a rest ih =>
    cases i with
    | zero =>
      have hna : a ∉ rest := (List.nodup_cons.mp hnd).1
      show findTask (assignFrom base (k + 1)
        (updateTask s a (setOrderId (base + (k : Int) + 1))) rest) a = _
      rw [findTask_assignFrom_not_mem base rest (k + 1) _ a hna,
        findTask_updateTask_self s a (setOrderId (base + (k : Int) + 1)) (fun t => rfl)]
      simp
    | succ j =>
      have hrest : rest.Nodup := (List.nodup_cons.mp hnd).2
      have hj : j < rest.length := Nat.lt_of_succ_lt_succ hi
      have hne : rest.get ⟨j, hj⟩ ≠ a := by
        intro he
        exact (List.nodup_cons.mp hnd).1 (he ▸ List.get_mem rest j hj)
      show findTask (assignFrom base (k + 1)
        (updateTask s a (setOrderId (base + (k : Int) + 1))) rest) (rest.get ⟨j, hj⟩) = _
      rw [ih hrest (k + 1) _ j hj,
        findTask_updateTask_ne s a _ (setOrderId (base + (k : Int) + 1)) (fun t => rfl) hne,
        show k + 1 + j = k + (j + 1) from by omega]
      rfl

/-- A release either leaves the store alone or clears one drag lock. -/
theorem releaseLock_store_cases (s : Store) (taskId userId : String) :
    (releaseLock s taskId userId).2.1 = s ∨
    (releaseLock s taskId userId).2.1 = updateTask s taskId clearDrag := by
  unfold releaseLock
  cases hx : findTask s taskId with
  | none => exact Or.inl rfl
  | some v =>
    by_cases hvl : v.isLocked
    · by_cases hvby : v.lockAcquiredBy = some userId
      · right
        simp [hvl, hvby]
      · left
        simp [hvl, hvby]
    · left
      simp [hvl]

/-- Releasing a lock never changes any row's `orderId`. -/
theorem findTask_orderId_releaseLock (s : Store) (taskId userId id : String) :
    (findTask (releaseLock s taskId userId).2.1 id).map Task.orderId =
      (findTask s id).map Task.orderId := by
  rcases releaseLock_store_cases s taskId userId with h | h <;> rw [h]
  by_cases hid : id = taskId
  · subst hid
    rw [findTask_updateTask_self s id clearDrag (fun t => rfl)]
    cases findTask s id <;> simp [clearDrag]
  · rw [findTask_updateTask_ne s taskId id clearDrag (fun t => rfl) hid]

/-- C2: a reorder by the drag-lock holder over a duplicate-free list of
existing ids writes two phases — after the spread batch the i-th id has
`orderId = 100000 + (i+1)`, and in the returned store (compact batch,
then lock release) the i-th id has `orderId = i + 1` — so the final
indices are exactly 1..N assigned in input order. -/
theorem reorder_two_phase_dense (s : Store) (taskId userId : String)
    (orderedIds : List String) (t : Task) (hfind : findTask s taskId = some t)
    (hl : t.isLocked = true) (hby : t.lockAcquiredBy = some userId)
    (hnd : orderedIds.Nodup) (hex : ∀ id ∈ orderedIds, (findTask s id).isSome) :
    ∃ upd evs, reorderTasks s taskId userId orderedIds =
      .ok ((releaseLock (assignFrom 0 0 (assignFrom OFFSET 0 s orderedIds) orderedIds)
        taskId userId).2.1, upd, evs) ∧
    (∀ i (hi : i < orderedIds.length), ∃ u,
      findTask (assignFrom OFFSET 0 s orderedIds) (orderedIds.get ⟨i, hi⟩) = some u ∧
      u.orderId = OFFSET + (i : Int) + 1) ∧
    (∀ i (hi : i < orderedIds.length), ∃ u,
      findTask (releaseLock (assignFrom 0 0 (assignFrom OFFSET 0 s orderedIds) orderedIds)
        taskId userId).2.1 (orderedIds.get ⟨i, hi⟩) = some u ∧
      u.orderId = (i : Int) + 1) := by
  have hspread : ∀ i (hi : i < orderedIds.length), ∃ u,
      findTask (assignFrom OFFSET 0 s orderedIds) (orderedIds.get ⟨i, hi⟩) = some u ∧
      u.orderId = OFFSET + (i : Int) + 1 := by
    intro i hi
    have hsome := hex _ (List.get_mem orderedIds i hi)
    rcases Option.isSome_iff_exists.mp hsome with ⟨u0, hu0⟩
    refine ⟨setOrderId (OFFSET + ((0 + i : Nat) : Int) + 1) u0, ?_, by simp [setOrderId]⟩
    rw [findTask_assignFrom_get OFFSET orderedIds hnd 0 s i hi, hu0]
    rfl
  have hcompact : ∀ i (hi : i < orderedIds.length), ∃ u,
      findTask (assignFrom 0 0 (assignFrom OFFSET 0 s orderedIds) orderedIds)
        (orderedIds.get ⟨i, hi⟩) = some u ∧ u.orderId = (i : Int) + 1 := by
    intro i hi
    rcases hspread i hi with ⟨u1, hu1, _⟩
    refine ⟨setOrderId ((0 : Int) + ((0 + i : Nat) : Int) + 1) u1, ?_, by simp [setOrderId]⟩
    rw [findTask_assignFrom_get 0 orderedIds hnd 0 _ i hi, hu1]
    rfl
  have hfinal : ∀ i (hi : i < orderedIds.length), ∃ u,
      findTask (releaseLock (assignFrom 0 0 (assignFrom OFFSET 0 s orderedIds) orderedIds)
        taskId userId).2.1 (orderedIds.get ⟨i, hi⟩) = some u ∧
      u.orderId = (i : Int) + 1 := by
    intro i hi
    rcases hcompact i hi with ⟨u2, hu2, hord⟩
    have hmap := findTask_orderId_releaseLock
      (assignFrom 0 0 (assignFrom OFFSET 0 s orderedIds) orderedIds) taskId userId
      (orderedIds.get ⟨i, hi⟩)
    rw [hu2] at hmap
    rcases Option.map_eq_some'.mp hmap with ⟨u3, hu3, hord3⟩
    exact ⟨u3, hu3, by rw [hord3, hord]⟩
  have hred : reorderTasks s taskId userId orderedIds =
      .ok ((releaseLock (assignFrom 0 0 (assignFrom OFFSET 0 s orderedIds) orderedIds)
          taskId userId).2.1,
        (((releaseLock (assignFrom 0 0 (assignFrom OFFSET 0 s orderedIds) orderedIds)
            taskId userId).2.1.filter (fun u => orderedIds.contains u.id)).map
          (fun u => (u.id, u.orderId))),
        (releaseLock (assignFrom 0 0 (assignFrom OFFSET 0 s orderedIds) orderedIds)
            taskId userId).2.2 ++
          [.task_reordered (((releaseLock (assignFrom 0 0 (assignFrom OFFSET 0 s orderedIds)
              orderedIds) taskId userId).2.1.filter
            (fun u => orderedIds.contains u.id)).map (fun u => (u.id, u.orderId)))]) := by
    simp [reorderTasks, hfind, hl, hby]
  exact ⟨_, _, hred, hspread, hfinal⟩

/-- Witness for C2: with the drag lock on t1 held by u1, reordering the
sample store as `[t2, t1]` gives t2 `orderId = 1` and t1 `orderId = 2`
(and the spread phase wrote 100001). -/
theorem reorder_two_phase_dense_witness :
    (∃ u, findTask (assignFrom OFFSET 0 sampleStore ["t2", "t1"]) "t2" = some u ∧
      u.orderId = 100001) ∧
    (∃ u, findTask (releaseLock (assignFrom 0 0 (assignFrom OFFSET 0 sampleStore ["t2", "t1"])
      ["t2", "t1"]) "t1" "u1").2.1 "t2" = some u ∧ u.orderId = 1) ∧
    (∃ u, findTask (releaseLock (assignFrom 0 0 (assignFrom OFFSET 0 sampleStore ["t2", "t1"])
      ["t2", "t1"]) "t1" "u1").2.1 "t1" = some u ∧ u.orderId = 2) := by
  have h := reorder_two_phase_dense sampleStore "t1" "u1" ["t2", "t1"] sampleLocked
    (by decide) (by decide) (by decide) (by decide) (by decide)
  rcases h with ⟨upd, evs, _, hspread, hfinal⟩
  have h0 := hspread 0 (by decide)
  have hf0 := hfinal 0 (by decide)
  have hf1 := hfinal 1 (by decide)
  refine ⟨?_, ?_, ?_⟩
  · simpa using h0
  · simpa using hf0
  · simpa using hf1

/-- The offline queue's event union (offlineQueue.ts). -/
inductive QueuedEvent where
  | CREATE_TASK (title : String) (description : Option String) (tempId : String)
  | UPDATE_TITLE (taskId title : String) (description : Option String) (userId : String)
  | UPDATE_STATUS (taskId : String) (status : TStatus) (userId : String)
  | REORDER_TASKS (taskId userId : String) (orderedIds : List String)
  | DELETE_TASK (taskId : String)
deriving Repr, DecidableEq

/-- A stored queue entry: IndexedDB key and enqueue instant. -/
structure StoredQueuedEvent where
  id : Nat
  enqueuedAt : Int
  ev : QueuedEvent
deriving Repr, DecidableEq

/-- The client-local offline queue. -/
abbrev Queue := List StoredQueuedEvent

/-- The comparator of `getAllEvents`:
`(a, b) => a.enqueuedAt - b.enqueuedAt`. -/
def byEnqueuedAt (a b : StoredQueuedEvent) : Prop := a.enqueuedAt ≤ b.enqueuedAt

instance : DecidableRel byEnqueuedAt := fun a b => Int.decLe a.enqueuedAt b.enqueuedAt

instance : IsTotal StoredQueuedEvent byEnqueuedAt :=
  ⟨fun a b => Int.le_total a.enqueuedAt b.enqueuedAt⟩

instance : IsTrans StoredQueuedEvent byEnqueuedAt :=
  ⟨fun _ _ _ hab hbc => le_trans hab hbc⟩

/-- `getAllEvents` from offlineQueue.ts: all entries sorted by
`enqueuedAt` ascending (stable sort). -/
def getAllEvents (q : Queue) : Queue := List.insertionSort byEnqueuedAt q

/-- `removeEvent` from offlineQueue.ts: delete one entry by its key. -/
def removeEvent (q : Queue) (id : Nat) : Queue := q.filter (fun e => e.id != id)

/-- `countEvents` from offlineQueue.ts. -/
def countEvents (q : Queue) : Nat := q.length

/-- Server-side world seen by the replay engine: the task table, a
counter modelling the persistence layer's fresh-id source, and the
broadcast log. -/
structure Server where
  store : Store
  nextId : Nat
  events : List Event
deriving Repr, DecidableEq

/-- Modelling the persistence layer's id default for `prisma.task.create`
(the uuid generator lives outside the repository): fresh ids from a
counter. -/
def freshTaskId (n : Nat) : String := "task-" ++ toString n

/-- The row written by `POST /` from tasks.ts (status defaults to TODO). -/
def createdTask (sv : Server) (title : String) (description : Option String) : Task :=
  { id := freshTaskId sv.nextId, title := title, description := description,
    status := .TODO, orderId := 0,
    isLocked := false, lockAcquiredBy := none, lockAcquireTime := none,
    isEditLocked := false, editLockAcquiredBy := none, editLockAcquireTime := none }

/-- `POST /` from tasks.ts: create the task and broadcast `task:created`. -/
def apiCreateTask (sv : Server) (title : String) (description : Option String) :
    Task × Server :=
  let task := createdTask sv title description
  (task, { store := sv.store ++ [task], nextId := sv.nextId + 1,
           events := sv.events ++ [.task_created task] })

/-- Client wrapper `api.acquireLock`: its `.catch` folds a 404 into a
result whose `success` field is absent (falsy). -/
def apiAcquireLock (sv : Server) (taskId userId : String) (now : Int) :
    LockResult × Server :=
  match acquireLock sv.store taskId userId now with
  | .error _ => (⟨false, none⟩, sv)
  | .ok (res, st, evs) => (res, { sv with store := st, events := sv.events ++ evs })

/-- Client wrapper `api.acquireEditLock` (same 404 folding). -/
def apiAcquireEditLock (sv : Server) (taskId userId : String) (now : Int) :
    LockResult × Server :=
  match acquireEditLock sv.store taskId userId now with
  | .error _ => (⟨false, none⟩, sv)
  | .ok (res, st, evs) => (res, { sv with store := st, events := sv.events ++ evs })

/-- `DELETE /:id/lock` through `api.releaseLock`. -/
def apiReleaseLock (sv : Server) (taskId userId : String) : Bool × Server :=
  let r := releaseLock sv.store taskId userId
  (r.1, { sv with store := r.2.1, events := sv.events ++ r.2.2 })

/-- `DELETE /:id/edit-lock` through `api.releaseEditLock`. -/
def apiReleaseEditLock (sv : Server) (taskId userId : String) : Bool × Server :=
  let r := releaseEditLock sv.store taskId userId
  (r.1, { sv with store := r.2.1, events := sv.events ++ r.2.2 })

/-- Prisma skips `undefined` fields: an absent description leaves the
stored one. -/
def applyTitleUpdate (title : String) (description : Option String) (u : Task) : Task :=
  { u with
    title := title,
    description := (match description with | none => u.description | some d => some d) }

/-- `PATCH /:id/title` from tasks.ts: requires the edit lock to be held
by the caller, updates, releases the edit lock, broadcasts
`task:updated` with the edit-lock fields cleared, and answers with the
updated (still edit-locked) row. -/
def apiUpdateTitle (sv : Server) (taskId title : String) (description : Option String)
    (userId : String) : Except ApiError (Task × Server) :=
  match findTask sv.store taskId with
  | none => .error .taskNotFound
  | some t =>
    if t.isEditLocked ∧ t.editLockAcquiredBy = some userId then
      let updated := applyTitleUpdate title description t
      let st1 := updateTask sv.store taskId (applyTitleUpdate title description)
      let r := releaseEditLock st1 taskId userId
      .ok (updated, { sv with
        store := r.2.1,
        events := sv.events ++ r.2.2 ++ [.task_updated (clearEdit updated)] })
    else .error .forbidden

/-- `PATCH /:id/status` from tasks.ts: requires the drag lock to be held
by the caller, updates, releases the drag lock, broadcasts
`task:updated`. -/
def apiUpdateStatus (sv : Server) (taskId : String) (status : TStatus) (userId : String) :
    Except ApiError (Task × Server) :=
  match findTask sv.store taskId with
  | none => .error .taskNotFound
  | some t =>
    if t.isLocked ∧ t.lockAcquiredBy = some userId then
      let updated := { t with status := status }
      let st1 := updateTask sv.store taskId (fun u => { u with status := status })
      let r := releaseLock st1 taskId userId
      .ok (updated, { sv with
        store := r.2.1,
        events := sv.events ++ r.2.2 ++ [.task_updated (clearDrag updated)] })
    else .error .forbidden

/-- `PATCH /reorder` through `api.reorderTasks`. -/
def apiReorderTasks (sv : Server) (taskId userId : String) (orderedIds : List String) :
    Except ApiError (List (String × Int) × Server) :=
  match reorderTasks sv.store taskId userId orderedIds with
  | .error e => .error e
  | .ok (st, upd, evs) => .ok (upd, { sv with store := st, events := sv.events ++ evs })

/-- `DELETE /:id` through `api.deleteTask`. -/
def apiDeleteTask (sv : Server) (taskId : String) : Except ApiError Server :=
  match deleteTask sv.store taskId with
  | .error e => .error e
  | .ok (st, evs) => .ok { sv with store := st, events := sv.events ++ evs }

/-- Toast severity (`'success' | 'error' | 'info'`). -/
inductive ToastKind where
  | success
  | error
  | info
deriving Repr, DecidableEq

/-- One toast notification shown to the caller. -/
structure Toast where
  msg : String
  kind : ToastKind
deriving Repr, DecidableEq

/-- Result of replaying one stored event (`replayOne` in
useOfflineQueue.ts); `created` / `updated` record the `onTaskCreated` /
`onTaskUpdated` callback reports to the caller. -/
structure ReplayOutcome where
  ok : Bool
  server : Server
  toasts : List Toast
  created : List Task
  updated : List Task
deriving Repr, DecidableEq

/-- The conflict toast of a denied title-edit replay. -/
def titleConflictToast : Toast :=
  ⟨"Could not sync title edit for task — edit locked by another user, skipped", .error⟩

/-- The conflict toast of a denied status-change replay. -/
def statusConflictToast : Toast :=
  ⟨"Could not sync status change — task is locked by another user, skipped", .error⟩

/-- The conflict toast of a denied reorder replay. -/
def reorderConflictToast : Toast :=
  ⟨"Could not sync reorder — task is locked by another user, skipped", .error⟩

/-- `replayOne` from useOfflineQueue.ts: replay one stored event against
the live server; a denied lock produces a conflict toast and `ok = false`
without aborting anything else. -/
def replayOne (now : Int) (sv : Server) (e : StoredQueuedEvent) : ReplayOutcome :=
  match e.ev with
  | .CREATE_TASK title description _tempId =>
    let r := apiCreateTask sv title description
    ⟨true, r.2, [], [r.1], []⟩
  | .UPDATE_TITLE taskId title description userId =>
    let lr := apiAcquireEditLock sv taskId userId now
    if lr.1.success = false then
      ⟨false, lr.2, [titleConflictToast], [], []⟩
    else
      match apiUpdateTitle lr.2 taskId title description userId with
      | .ok (task, sv2) =>
        let rel := apiReleaseEditLock sv2 taskId userId
        ⟨true, rel.2, [], [], [task]⟩
      | .error _ =>
        let rel := apiReleaseEditLock lr.2 taskId userId
        ⟨false, rel.2, [], [], []⟩
  | .UPDATE_STATUS taskId status userId =>
    let lr := apiAcquireLock sv taskId userId now
    if lr.1.success = false then
      ⟨false, lr.2, [statusConflictToast], [], []⟩
    else
      match apiUpdateStatus lr.2 taskId status userId with
      | .ok (task, sv2) => ⟨true, sv2, [], [], [task]⟩
      | .error _ =>
        let rel := apiReleaseLock lr.2 taskId userId
        ⟨false, rel.2, [], [], []⟩
  | .REORDER_TASKS taskId userId orderedIds =>
    let lr := apiAcquireLock sv taskId userId now
    if lr.1.success = false then
      ⟨false, lr.2, [reorderConflictToast], [], []⟩
    else
      match apiReorderTasks lr.2 taskId userId orderedIds with
      | .ok (_, sv2) => ⟨true, sv2, [], [], []⟩
      | .error _ =>
        let rel := apiReleaseLock lr.2 taskId userId
        ⟨false, rel.2, [], [], []⟩
  | .DELETE_TASK taskId =>
    match apiDeleteTask sv taskId with
    | .ok sv2 => ⟨true, sv2, [], [], []⟩
    | .error _ => ⟨false, sv, [], [], []⟩

/-- Aggregate result of a full `flushQueue` run. -/
structure FlushResult where
  server : Server
  queue : Queue
  toasts : List Toast
  created : List Task
  updated : List Task
deriving Repr, DecidableEq

/-- The `for (const ev of events)` loop of `flushQueue`: process the
drained list strictly in order, removing each successfully replayed
entry from IndexedDB before the next entry starts. -/
def processAll (now : Int) : Server → List StoredQueuedEvent → Queue → FlushResult
  | sv, [], q => ⟨sv, q, [], [], []⟩
  | sv, e :: rest, q =>
    let r := replayOne now sv e
    let k := processAll now r.server rest (if r.ok then removeEvent q e.id else q)
    ⟨k.server, k.queue, r.toasts ++ k.toasts, r.created ++ k.created, r.updated ++ k.updated⟩

/-- Plural suffix used by the flush toasts. -/
def pluralS (n : Nat) : String := if n > 1 then "s" else ""

/-- The `Syncing N offline changes…` toast. -/
def syncingToast (n : Nat) : Toast :=
  ⟨"Syncing " ++ toString n ++ " offline change" ++ pluralS n ++ "…", .info⟩

/-- The `N changes could not be synced and were discarded` toast. -/
def discardToast (n : Nat) : Toast :=
  ⟨toString n ++ " change" ++ pluralS n ++ " could not be synced and were discarded", .error⟩

/-- The success toast of a clean pass. -/
def allSyncedToast : Toast := ⟨"All offline changes synced!", .success⟩

/-- `flushQueue` from useOfflineQueue.ts: drain the sorted queue, replay
each entry in order, then — if anything was skipped — notify how many
entries are dropped and delete every leftover, so the queue ends empty. -/
def flushQueue (now : Int) (sv : Server) (q : Queue) : FlushResult :=
  let events := getAllEvents q
  if events.length = 0 then ⟨sv, q, [], [], []⟩
  else
    let k := processAll now sv events q
    let remaining := countEvents k.queue
    if remaining = 0 then
      ⟨k.server, k.queue, [syncingToast events.length] ++ k.toasts ++ [allSyncedToast],
        k.created, k.updated⟩
    else
      ⟨k.server, [], [syncingToast events.length] ++ k.toasts ++ [discardToast remaining],
        k.created, k.updated⟩

/-- A failed acquire leaves the store unchanged and emits nothing. -/
theorem acquireLock_denied_frame (s : Store) (taskId uid : String) (now : Int)
    (res : LockResult) (st : Store) (evs : List Event)
    (h : acquireLock s taskId uid now = .ok (res, st, evs)) (hs : res.success = false) :
    st = s ∧ evs = [] := by
  cases hx : findTask s taskId with
  | none => simp [acquireLock, hx] at h
  | some t =>
    simp only [acquireLock, hx] at h
    by_cases h1 : t.isLocked ∧ t.lockAcquiredBy ≠ some uid
    · rw [if_pos h1] at h
      simp only [Except.ok.injEq, Prod.mk.injEq] at h
      exact ⟨h.2.1.symm, h.2.2.symm⟩
    · rw [if_neg h1] at h
      by_cases h2 : t.isLocked ∧ t.lockAcquiredBy = some uid
      · rw [if_pos h2] at h
        simp only [Except.ok.injEq, Prod.mk.injEq] at h
        rw [← h.1] at hs
        exact absurd hs (by decide)
      · rw [if_neg h2] at h
        simp only [Except.ok.injEq, Prod.mk.injEq] at h
        rw [← h.1] at hs
        exact absurd hs (by decide)

/-- A failed edit acquire leaves the store unchanged and emits nothing. -/
theorem acquireEditLock_denied_frame (s : Store) (taskId uid : String) (now : Int)
    (res : LockResult) (st : Store) (evs : List Event)
    (h : acquireEditLock s taskId uid now = .ok (res, st, evs)) (hs : res.success = false) :
    st = s ∧ evs = [] := by
  cases hx : findTask s taskId with
  | none => simp [acquireEditLock, hx] at h
  | some t =>
    simp only [acquireEditLock, hx] at h
    by_cases h1 : t.isEditLocked ∧ t.editLockAcquiredBy ≠ some uid
    · rw [if_pos h1] at h
      simp only [Except.ok.injEq, Prod.mk.injEq] at h
      exact ⟨h.2.1.symm, h.2.2.symm⟩
    · rw [if_neg h1] at h
      by_cases h2 : t.isEditLocked ∧ t.editLockAcquiredBy = some uid
      · rw [if_pos h2] at h
        simp only [Except.ok.injEq, Prod.mk.injEq] at h
        rw [← h.1] at hs
        exact absurd hs (by decide)
      · rw [if_neg h2] at h
        simp only [Except.ok.injEq, Prod.mk.injEq] at h
        rw [← h.1] at hs
        exact absurd hs (by decide)

/-- A denied client-side acquire returns the server unchanged. -/
theorem apiAcquireLock_denied_server (sv : Server) (taskId uid : String) (now : Int)
    (h : (apiAcquireLock sv taskId uid now).1.success = false) :
    (apiAcquireLock sv taskId uid now).2 = sv := by
  cases hx : acquireLock sv.store taskId uid now with
  | error e => simp [apiAcquireLock, hx]
  | ok triple =>
    obtain ⟨res, st, evs⟩ := triple
    simp only [apiAcquireLock, hx] at h ⊢
    obtain ⟨hst, hevs⟩ := acquireLock_denied_frame sv.store taskId uid now res st evs hx h
    subst hst
    subst hevs
    simp

/-- A denied client-side edit acquire returns the server unchanged. -/
theorem apiAcquireEditLock_denied_server (sv : Server) (taskId uid : String) (now : Int)
    (h : (apiAcquireEditLock sv taskId uid now).1.success = false) :
    (apiAcquireEditLock sv taskId uid now).2 = sv := by
  cases hx : acquireEditLock sv.store taskId uid now with
  | error e => simp [apiAcquireEditLock, hx]
  | ok triple =>
    obtain ⟨res, st, evs⟩ := triple
    simp only [apiAcquireEditLock, hx] at h ⊢
    obtain ⟨hst, hevs⟩ := acquireEditLock_denied_frame sv.store taskId uid now res st evs hx h
    subst hst
    subst hevs
    simp

/-- The final server of the replay loop is the sequential fold of
`replayOne` over every pending entry: no entry aborts the rest. -/
theorem processAll_server (now : Int) (pending : List StoredQueuedEvent) :
    ∀ sv q, (processAll now sv pending q).server =
      pending.foldl (fun s e => (replayOne now s e).server) sv := by
  induction pending with
  | nil => intro sv q; rfl
  | cons e rest ih =>
    intro sv q
    simp only [processAll, List.foldl_cons]
    exact ih _ _

/-- The IndexedDB keys removed by the replay loop, computed in replay
order against the evolving server. -/
def successIds (now : Int) : Server → List StoredQueuedEvent → List Nat
  | _, [] => []
  | sv, e :: rest =>
    (if (replayOne now sv e).ok then [e.id] else []) ++
      successIds now (replayOne now sv e).server rest

/-- The replay loop removes exactly the successfully replayed entries,
in order, each before the next entry starts. -/
theorem processAll_queue (now : Int) (pending : List StoredQueuedEvent) :
    ∀ sv q, (processAll now sv pending q).queue =
      (successIds now sv pending).foldl removeEvent q := by
  induction pending with
  | nil => intro sv q; rfl
  | cons e rest ih =>
    intro sv q
    by_cases hok : (replayOne now sv e).ok = true
    · simp only [processAll, successIds, hok, if_true, List.singleton_append,
        List.foldl_cons]
      exact ih _ _
    · simp only [processAll, successIds, hok, if_false, List.nil_append,
        Bool.false_eq_true]
      exact ih _ _

/-- After `flushQueue` the queue is empty: successes were removed during
the pass and every leftover is deleted afterwards. -/
theorem flushQueue_queue_nil (now : Int) (sv : Server) (q : Queue) :
    (flushQueue now sv q).queue = [] := by
  simp only [flushQueue]
  by_cases h0 : (getAllEvents q).length = 0
  · rw [if_pos h0]
    have hq : q.length = 0 := by
      rw [← (List.perm_insertionSort byEnqueuedAt q).length_eq]
      exact h0
    exact List.length_eq_zero.mp hq
  · rw [if_neg h0]
    by_cases hr : countEvents (processAll now sv (getAllEvents q) q).queue = 0
    · rw [if_pos hr]
      exact List.length_eq_zero.mp hr
    · rw [if_neg hr]

/-- When entries remain after the pass, the caller is told how many were
dropped. -/
theorem flushQueue_discard_mem (now : Int) (sv : Server) (q : Queue)
    (h : countEvents (processAll now sv (getAllEvents q) q).queue > 0) :
    discardToast (countEvents (processAll now sv (getAllEvents q) q).queue) ∈
      (flushQueue now sv q).toasts := by
  have h0 : ¬(getAllEvents q).length = 0 := by
    intro hz
    have hq : q = [] := by
      apply List.length_eq_zero.mp
      rw [← (List.perm_insertionSort byEnqueuedAt q).length_eq]
      exact hz
    subst hq
    have : getAllEvents ([] : Queue) = [] := rfl
    rw [this] at h
    simp [processAll, countEvents] at h
  simp only [flushQueue]
  rw [if_neg h0, if_neg (Nat.pos_iff_ne_zero.mp h)]
  simp

/-- C5: a replay entry whose lock acquire is denied is skipped with a
conflict toast, leaving the server untouched (for each lock-guarded
kind); the loop still runs every remaining entry (the final server is
the full sequential fold); after the pass the queue always ends empty;
and when entries remain unsynced the caller is told how many were
dropped. -/
theorem replay_skips_denied_then_discards (now : Int) :
    (∀ (sv : Server) (eid : Nat) (tme : Int) (taskId : String) (st : TStatus) (uid : String),
      (apiAcquireLock sv taskId uid now).1.success = false →
      replayOne now sv ⟨eid, tme, .UPDATE_STATUS taskId st uid⟩ =
        ⟨false, sv, [statusConflictToast], [], []⟩) ∧
    (∀ (sv : Server) (eid : Nat) (tme : Int) (taskId title : String)
      (description : Option String) (uid : String),
      (apiAcquireEditLock sv taskId uid now).1.success = false →
      replayOne now sv ⟨eid, tme, .UPDATE_TITLE taskId title description uid⟩ =
        ⟨false, sv, [titleConflictToast], [], []⟩) ∧
    (∀ (sv : Server) (eid : Nat) (tme : Int) (taskId uid : String)
      (orderedIds : List String),
      (apiAcquireLock sv taskId uid now).1.success = false →
      replayOne now sv ⟨eid, tme, .REORDER_TASKS taskId uid orderedIds⟩ =
        ⟨false, sv, [reorderConflictToast], [], []⟩) ∧
    (∀ (sv : Server) (pending : List StoredQueuedEvent) (q : Queue),
      (processAll now sv pending q).server =
        pending.foldl (fun s e => (replayOne now s e).server) sv) ∧
    (∀ (sv : Server) (q : Queue), (flushQueue now sv q).queue = []) ∧
    (∀ (sv : Server) (q : Queue),
      countEvents (processAll now sv (getAllEvents q) q).queue > 0 →
      discardToast (countEvents (processAll now sv (getAllEvents q) q).queue) ∈
        (flushQueue now sv q).toasts) := by
  refine ⟨?_, ?_, ?_, fun sv pending q => processAll_server now pending sv q,
    flushQueue_queue_nil now, flushQueue_discard_mem now⟩
  · intro sv eid tme taskId st uid hden
    have hsv := apiAcquireLock_denied_server sv taskId uid now hden
    simp [replayOne, hden, hsv]
  · intro sv eid tme taskId title description uid hden
    have hsv := apiAcquireEditLock_denied_server sv taskId uid now hden
    simp [replayOne, hden, hsv]
  · intro sv eid tme taskId uid orderedIds hden
    have hsv := apiAcquireLock_denied_server sv taskId uid now hden
    simp [replayOne, hden, hsv]

/-- Sample server for replay witnesses: t1's locks are held by u1. -/
def sampleServer : Server := ⟨sampleStore, 0, []⟩

/-- Sample queue: one status change on t1 queued by u2 (which will be
denied, t1 being locked by u1). -/
def sampleQueue : Queue := [⟨1, 5, .UPDATE_STATUS "t1" .DONE "u2"⟩]

/-- Witness for C5: u2's queued status change on u1-locked t1 is skipped
with the conflict toast and an unchanged server; the flush ends with an
empty queue and the one-dropped-change notification. -/
theorem replay_skips_denied_then_discards_witness :
    replayOne 0 sampleServer ⟨1, 5, .UPDATE_STATUS "t1" .DONE "u2"⟩ =
      ⟨false, sampleServer, [statusConflictToast], [], []⟩ ∧
    (flushQueue 0 sampleServer sampleQueue).queue = [] ∧
    discardToast 1 ∈ (flushQueue 0 sampleServer sampleQueue).toasts := by
  have h := replay_skips_denied_then_discards 0
  refine ⟨h.1 sampleServer 1 5 "t1" .DONE "u2" (by decide),
    h.2.2.2.2.1 sampleServer sampleQueue, ?_⟩
  have hc : countEvents (processAll 0 sampleServer (getAllEvents sampleQueue)
      sampleQueue).queue = 1 := by decide
  have := h.2.2.2.2.2 sampleServer sampleQueue (by rw [hc]; decide)
  rwa [hc] at this

/-- C9: `getAllEvents` is a permutation of the queue sorted ascending by
`enqueuedAt`; `flushQueue` replays exactly that sorted sequence in
order (its final server is the sequential fold over it); and the loop
removes each successful entry's key from the queue as it goes. -/
theorem drain_sorted_fifo_replay (now : Int) :
    (∀ q : Queue, (getAllEvents q).Perm q) ∧
    (∀ q : Queue, List.Sorted byEnqueuedAt (getAllEvents q)) ∧
    (∀ (sv : Server) (q : Queue), (flushQueue now sv q).server =
      (getAllEvents q).foldl (fun s e => (replayOne now s e).server) sv) ∧
    (∀ (sv : Server) (pending : List StoredQueuedEvent) (q : Queue),
      (processAll now sv pending q).queue =
        (successIds now sv pending).foldl removeEvent q) := by
  refine ⟨fun q => List.perm_insertionSort byEnqueuedAt q,
    fun q => List.sorted_insertionSort byEnqueuedAt q, ?_,
    fun sv pending q => processAll_queue now pending sv q⟩
  intro sv q
  simp only [flushQueue]
  by_cases h0 : (getAllEvents q).length = 0
  · rw [if_pos h0]
    rw [List.length_eq_zero.mp h0]
    rfl
  · rw [if_neg h0]
    by_cases hr : countEvents (processAll now sv (getAllEvents q) q).queue = 0
    · rw [if_pos hr]
      exact processAll_server now (getAllEvents q) sv q
    · rw [if_neg hr]
      exact processAll_server now (getAllEvents q) sv q

/-- A task as the board page sees it, with the `_isOptimistic` marker of
locally created placeholders (BoardPage.tsx / CreateTaskForm.tsx). -/
structure ClientTask where
  id : String
  title : String
  isOptimistic : Bool
deriving Repr, DecidableEq

/-- A server task arriving at the board is never optimistic. -/
def toClient (t : Task) : ClientTask := ⟨t.id, t.title, false⟩

/-- The placeholder built by `CreateTaskForm.handleSubmit` while offline:
its id is the freshly drawn `tempId` and it carries `_isOptimistic`. -/
def optimisticTask (tempId title : String) : ClientTask := ⟨tempId, title, true⟩

/-- `onTaskCreated` from BoardPage.tsx: replace the first task flagged
optimistic whose title equals the incoming task's title; otherwise
append unless the id is already present. -/
def onTaskCreated (prev : List ClientTask) (task : ClientTask) : List ClientTask :=
  match prev.findIdx? (fun t => t.isOptimistic && t.title == task.title) with
  | some i => prev.set i task
  | none => if prev.any (fun t => t.id == task.id) then prev else prev ++ [task]

/-- Modelled from the spec: the reconciliation the spec describes,
"matching ... by correlating on a caller-chosen local temporary identity
plus title" — the placeholder whose id is the entry's `tempId` and whose
title matches.  Stated only to compare with `onTaskCreated`. -/
def onTaskCreatedSpec (prev : List ClientTask) (tempId : String) (task : ClientTask) :
    List ClientTask :=
  match prev.findIdx? (fun t => t.id == tempId && t.title == task.title) with
  | some i => prev.set i task
  | none => if prev.any (fun t => t.id == task.id) then prev else prev ++ [task]

/-- Counterexample to C6 as stated: two same-title placeholders with
tempIds `tmp-a` and `tmp-b`; replaying the queued CREATE that carries
`tempId = tmp-b` makes the board replace the placeholder `tmp-a` (the
first optimistic title match), not the tempId-correlated `tmp-b` — the
enqueued tempId is never consulted (replayOne reads only title and
description), so matching is not done by tempId plus title. -/
theorem create_replay_matching_counterexample :
    (replayOne 0 ⟨[], 0, []⟩ ⟨1, 0, .CREATE_TASK "X" none "tmp-b"⟩).created =
      [createdTask ⟨[], 0, []⟩ "X" none] ∧
    (replayOne 0 ⟨[], 0, []⟩ ⟨1, 0, .CREATE_TASK "X" none "tmp-b"⟩) =
      (replayOne 0 ⟨[], 0, []⟩ ⟨1, 0, .CREATE_TASK "X" none "tmp-a"⟩) ∧
    onTaskCreated [optimisticTask "tmp-a" "X", optimisticTask "tmp-b" "X"]
        (toClient (createdTask ⟨[], 0, []⟩ "X" none)) =
      [toClient (createdTask ⟨[], 0, []⟩ "X" none), optimisticTask "tmp-b" "X"] ∧
    onTaskCreatedSpec [optimisticTask "tmp-a" "X", optimisticTask "tmp-b" "X"] "tmp-b"
        (toClient (createdTask ⟨[], 0, []⟩ "X" none)) =
      [optimisticTask "tmp-a" "X", toClient (createdTask ⟨[], 0, []⟩ "X" none)] ∧
    onTaskCreated [optimisticTask "tmp-a" "X", optimisticTask "tmp-b" "X"]
        (toClient (createdTask ⟨[], 0, []⟩ "X" none)) ≠
      onTaskCreatedSpec [optimisticTask "tmp-a" "X", optimisticTask "tmp-b" "X"] "tmp-b"
        (toClient (createdTask ⟨[], 0, []⟩ "X" none)) := by
  refine ⟨by decide, by decide, by decide, by decide, by decide⟩

/-- C6 (amended): replaying a queued CREATE_TASK reports the
server-assigned task back to the caller, and the board swaps it in for
the first optimistic placeholder with matching title — in place, length
preserved, so no duplicate — while the enqueued tempId plays no part in
the matching. -/
theorem create_replay_reports_and_swaps (now : Int) (sv : Server) (eid : Nat) (tme : Int)
    (title : String) (description : Option String) (tempId : String)
    (prev : List ClientTask) (i : Nat)
    (hidx : prev.findIdx? (fun t => t.isOptimistic && t.title == title) = some i) :
    replayOne now sv ⟨eid, tme, .CREATE_TASK title description tempId⟩ =
      ⟨true, (apiCreateTask sv title description).2, [],
        [createdTask sv title description], []⟩ ∧
    (createdTask sv title description).title = title ∧
    onTaskCreated prev (toClient (createdTask sv title description)) =
      prev.set i (toClient (createdTask sv title description)) ∧
    (onTaskCreated prev (toClient (createdTask sv title description))).length =
      prev.length := by
  refine ⟨rfl, rfl, ?_, ?_⟩
  · simp [onTaskCreated, toClient, createdTask, hidx]
  · simp [onTaskCreated, toClient, createdTask, hidx]

/-- Witness for the amended C6: one placeholder titled X is swapped for
the server task in place. -/
theorem create_replay_reports_and_swaps_witness :
    replayOne 0 ⟨[], 7, []⟩ ⟨1, 0, .CREATE_TASK "X" none "tmp-a"⟩ =
      ⟨true, (apiCreateTask ⟨[], 7, []⟩ "X" none).2, [], [createdTask ⟨[], 7, []⟩ "X" none],
        []⟩ ∧
    onTaskCreated [optimisticTask "tmp-a" "X"] (toClient (createdTask ⟨[], 7, []⟩ "X" none)) =
      [optimisticTask "tmp-a" "X"].set 0 (toClient (createdTask ⟨[], 7, []⟩ "X" none)) ∧
    (onTaskCreated [optimisticTask "tmp-a" "X"]
      (toClient (createdTask ⟨[], 7, []⟩ "X" none))).length = 1 := by
  have h := create_replay_reports_and_swaps 0 ⟨[], 7, []⟩ 1 0 "X" none "tmp-a"
    [optimisticTask "tmp-a" "X"] 0 (by decide)
  exact ⟨h.1, h.2.2.1, h.2.2.2⟩
